import Mathlib

/-!
Verification development for the data-driven perceptual-mapping analyzer
(`data_driven_analyzer.py`).  A dataset is modelled column-wise: each column
has a name and is either numeric (rationals, standing for the float/int
values) or textual.  The structure-inference, normalization and map-building
functions below are shallow embeddings of the corresponding Python methods
of `DataDrivenAnalyzer`.
-/

namespace PerceptualMap

/-- A column's data: numeric (pandas numeric dtype) or textual (object dtype). -/
inductive ColData where
  | nums (vs : List ℚ)
  | strs (vs : List String)
deriving DecidableEq

/-- A named column. -/
structure Col where
  name : String
  data : ColData
deriving DecidableEq

/-- A dataset: an ordered list of columns (the pandas DataFrame). -/
structure Dataset where
  cols : List Col
deriving DecidableEq

def ColData.isNum : ColData → Bool
  | .nums _ => true
  | .strs _ => false

def ColData.isStr : ColData → Bool
  | .nums _ => false
  | .strs _ => true

def ColData.size : ColData → ℕ
  | .nums vs => vs.length
  | .strs vs => vs.length

/-- Number of distinct values in a column (pandas `nunique`). -/
def ColData.nunique : ColData → ℕ
  | .nums vs => vs.dedup.length
  | .strs vs => vs.dedup.length

def colNames (ds : Dataset) : List String := ds.cols.map (·.name)

/-- `len(self.data)`: the row count (length of the columns). -/
def nRows (ds : Dataset) : ℕ :=
  match ds.cols with
  | [] => 0
  | c :: _ => c.data.size

/-- Column access by name (`df[name]`), first match. -/
def lookupCol (ds : Dataset) (n : String) : Option Col :=
  ds.cols.find? (fun c => c.name = n)

def colNums (ds : Dataset) (n : String) : Option (List ℚ) :=
  match lookupCol ds n with
  | some ⟨_, .nums vs⟩ => some vs
  | _ => none

def colStrs (ds : Dataset) (n : String) : Option (List String) :=
  match lookupCol ds n with
  | some ⟨_, .strs vs⟩ => some vs
  | _ => none

/-- Names of the textual columns, in original order. -/
def stringColumns (ds : Dataset) : List String :=
  (ds.cols.filter (fun c => c.data.isStr)).map (·.name)

/-- Names of the numeric columns, in original order. -/
def numericColumns (ds : Dataset) : List String :=
  (ds.cols.filter (fun c => c.data.isNum)).map (·.name)

/-- Python's `str.lower()` (character-wise). -/
def strLower (s : String) : String := ⟨s.data.map Char.toLower⟩

/-- Python's substring test `kw in s`. -/
def isSubstr (kw s : String) : Bool := decide (kw.toList <:+: s.toList)

def identifierKeywords : List String :=
  ["name", "product", "item", "service", "brand", "model",
   "company", "app", "platform", "tool", "system", "option"]

def categoryKeywords : List String :=
  ["category", "type", "tier", "segment", "class", "level", "group"]

def popularityKeywords : List String := ["popularity", "popular", "market_share", "share"]

def sizeKeywords : List String := ["size", "volume", "count", "users"]

def qmean (l : List ℚ) : ℚ := l.sum / l.length

/-- Average string length of a textual column (`astype(str).str.len().mean()`). -/
def avgStrLen (vs : List String) : ℚ :=
  ((vs.map String.length).sum : ℚ) / vs.length

/-- Identifier-likelihood score of one column (`_find_identifier_column` body):
+10 per identifier keyword occurring (case-insensitively) in the name,
+5 if distinct/row ratio exceeds 0.8 (+3 if it exceeds 0.5),
+2 if the average string length exceeds 3. -/
def identifierScore (ds : Dataset) (c : Col) : ℕ :=
  let low := strLower c.name
  let kws := 10 * (identifierKeywords.filter (fun k => isSubstr k low)).length
  let ratio : ℚ := (c.data.nunique : ℚ) / (nRows ds : ℚ)
  let uniq : ℕ := if ratio > 4/5 then 5 else if ratio > 1/2 then 3 else 0
  let avgLen : ℕ :=
    match c.data with
    | .strs vs => if avgStrLen vs > 3 then 2 else 0
    | .nums _ => 0
  kws + uniq + avgLen

def scoreOf (ds : Dataset) (n : String) : ℕ :=
  match lookupCol ds n with
  | some c => identifierScore ds c
  | none => 0

/-- Python's `max(scores, key=scores.get)`: first element attaining the
maximum (a later element replaces the current best only when strictly
greater). -/
def argmaxF (f : String → ℕ) (b : String) : List String → String
  | [] => b
  | x :: xs => argmaxF f (if f x > f b then x else b) xs

/-- `_find_identifier_column`: highest-scoring textual column, ties broken by
original position; `None` when no textual column exists. -/
def findIdentifierColumn (ds : Dataset) : Option String :=
  match stringColumns ds with
  | [] => none
  | c :: cs => some (argmaxF (scoreOf ds) c cs)

/-- `_find_category_columns` membership test for one (textual) column. -/
def isCategoryCol (ds : Dataset) (c : Col) : Bool :=
  categoryKeywords.any (fun k => isSubstr k (strLower c.name)) ||
    (decide ((c.data.nunique : ℚ) / (nRows ds : ℚ) < 3/10) && decide (1 < c.data.nunique))

/-- `_find_category_columns`. -/
def findCategoryColumns (ds : Dataset) : List String :=
  ((ds.cols.filter (fun c => c.data.isStr)).filter (isCategoryCol ds)).map (·.name)

/-- The rating-band test of `_find_rating_columns`, on a column's observed
(min, max): range ≤ 10 with min ≥ 0, or range ≤ 9 / ≤ 4 / ≤ 6 with min ≥ 1. -/
def isRatingCol (c : Col) : Bool :=
  match c.data with
  | .nums (v :: vs) =>
    let lo := vs.foldl min v
    let hi := vs.foldl max v
    let r := hi - lo
    decide ((r ≤ 10 ∧ 0 ≤ lo) ∨ (r ≤ 9 ∧ 1 ≤ lo) ∨ (r ≤ 4 ∧ 1 ≤ lo) ∨ (r ≤ 6 ∧ 1 ≤ lo))
  | _ => false

/-- `_find_rating_columns`. -/
def findRatingColumns (ds : Dataset) : List String :=
  ((ds.cols.filter (fun c => c.data.isNum)).filter isRatingCol).map (·.name)

/-- `_find_special_columns`: the popularity- and size-tagged columns (a later
matching column overwrites an earlier one, as successive dict assignments do). -/
def findSpecialColumns (ds : Dataset) : Option String × Option String :=
  (ds.cols.filter (fun c => c.data.isNum)).foldl
    (fun acc c =>
      let low := strLower c.name
      if popularityKeywords.any (fun k => isSubstr k low) then (some c.name, acc.2)
      else if sizeKeywords.any (fun k => isSubstr k low) then (acc.1, some c.name)
      else acc)
    (none, none)

/-- `get_available_dimensions`: rating columns minus the canonical metadata
names and the category columns. -/
def availableDimensions (ds : Dataset) : List String :=
  let excl := ["phone_model", "brand", "tier", "popularity"] ++ findCategoryColumns ds
  (findRatingColumns ds).filter (fun c => c ∉ excl)

/-- `df.rename(columns={old: nw})`: renames every column named `old`
(a missing name is silently ignored). -/
def renameCol (ds : Dataset) (old nw : String) : Dataset :=
  ⟨ds.cols.map (fun c => if c.name = old then ⟨nw, c.data⟩ else c)⟩

/-- `df[n] = data`: appends a new column. -/
def addCol (ds : Dataset) (n : String) (d : ColData) : Dataset :=
  ⟨ds.cols ++ [⟨n, d⟩]⟩

/-- `\w` of the brand-extraction regex. -/
def isWordChar (ch : Char) : Bool := ch.isAlphanum || ch = '_'

/-- `str.extract(r'^(\w+)')[0].fillna('Unknown')` on one value. -/
def extractBrand (s : String) : String :=
  let t := s.data.takeWhile isWordChar
  if t = [] then "Unknown" else ⟨t⟩

/-- `astype(str)` on a column. -/
def ColData.asStrings : ColData → List String
  | .strs vs => vs
  | .nums vs => vs.map (fun q => if q.den = 1 then toString q.num else toString q)

/-- Round half to even (numpy/pandas `.round()`). -/
def roundHalfEven (q : ℚ) : ℤ :=
  let f := ⌊q⌋
  let r := q - f
  if r < 1/2 then f
  else if r > 1/2 then f + 1
  else if 2 ∣ f then f else f + 1

/-- `_prepare_data`, first statement: rename the identifier column (when one
was found and differs) to the canonical name `phone_model`. -/
def prepIdentifier (ds : Dataset) : Dataset :=
  match findIdentifierColumn ds with
  | some c => if c = "phone_model" then ds else renameCol ds c "phone_model"
  | none => ds

/-- `_prepare_data`, second statement: synthesize the `brand` column from the
leading word-character run of `phone_model` when absent. -/
def prepBrand (d : Dataset) : Dataset :=
  if "brand" ∉ colNames d ∧ "phone_model" ∈ colNames d then
    match lookupCol d "phone_model" with
    | some c => addCol d "brand" (.strs (c.data.asStrings.map extractBrand))
    | none => d
  else d

/-- `_prepare_data`, third statement: rename the first category column (as
detected on the original data) to `tier`, or default the column. -/
def prepTier (ds d : Dataset) : Dataset :=
  let cats := findCategoryColumns ds
  if cats ≠ [] ∧ "tier" ∉ colNames d then
    renameCol d (cats.headD "") "tier"
  else if "tier" ∉ colNames d then
    addCol d "tier" (.strs (List.replicate (nRows d) "Standard"))
  else d

/-- `_prepare_data`, fourth statement: adopt or synthesize the `popularity`
column.  Returns `none` when the Python code raises: selecting a missing
rating column (KeyError), or the synthetic-weight min-max normalization
divides by zero (the 0/0 NaN makes `.astype(int)` raise). -/
def prepPopularity (ds d : Dataset) : Option Dataset :=
  if "popularity" ∈ colNames d then some d
  else
    match (findSpecialColumns ds).1 with
    | some pc => some (renameCol d pc "popularity")
    | none =>
      if findRatingColumns ds = [] then
        some (addCol d "popularity" (.nums (List.replicate (nRows d) 50)))
      else
        match (findRatingColumns ds).mapM (colNums d) with
        | none => none
        | some colsData =>
          match (List.range (nRows d)).map
              (fun i => qmean (colsData.map (fun vs => vs.getD i 0))) with
          | [] => some (addCol d "popularity" (.nums []))
          | m :: ms =>
            if ms.foldl max m = ms.foldl min m then none
            else some (addCol d "popularity"
              (.nums ((m :: ms).map (fun q =>
                ((roundHalfEven ((q - ms.foldl min m)
                  / (ms.foldl max m - ms.foldl min m) * 100) : ℤ) : ℚ)))))

/-- `_prepare_data`: standardize the identifier to `phone_model`, synthesize
`brand`, `tier` and `popularity` in the source's statement order. -/
def prepareData (ds : Dataset) : Option Dataset :=
  prepPopularity ds (prepTier ds (prepBrand (prepIdentifier ds)))

/-- The analyzer after `__init__`: the original data plus the prepared table. -/
structure Analyzer where
  data : Dataset
  processed : Dataset
deriving DecidableEq

/-- `DataDrivenAnalyzer(df)`: `none` when `__init__` raises inside
`_prepare_data`. -/
def mkAnalyzer (ds : Dataset) : Option Analyzer :=
  (prepareData ds).map (fun p => ⟨ds, p⟩)

/-- Auxiliary loop of `uniqueOrder`: keep the elements not seen before. -/
def uniqueOrderGo (seen : List String) : List String → List String
  | [] => []
  | x :: xs => if x ∈ seen then uniqueOrderGo seen xs else x :: uniqueOrderGo (x :: seen) xs

/-- Distinct values in first-seen order (pandas `Series.unique()`). -/
def uniqueOrder (l : List String) : List String := uniqueOrderGo [] l

/-- Lexicographic (code-point) string order, Python's `str` comparison. -/
def charListLE : List Char → List Char → Bool
  | [], _ => true
  | _ :: _, [] => false
  | a :: as, b :: bs => if a < b then true else if b < a then false else charListLE as bs

/-- The distinct group keys in ascending order (`groupby` sorts its keys). -/
def subjectsSorted (subj : List String) : List String :=
  List.insertionSort (fun a b => charListLE a.data b.data = true) (uniqueOrder subj)

/-- Index of the first occurrence of `b`. -/
def firstIdx (b : String) : List String → ℕ
  | [] => 0
  | x :: xs => if x = b then 0 else firstIdx b xs + 1

/-- Positions paired with elements, starting at `n` (Python `enumerate`). -/
def withIdx (n : ℕ) : List String → List (ℕ × String)
  | [] => []
  | x :: xs => (n, x) :: withIdx (n + 1) xs

/-- The fixed brand→color table of `_get_brand_colors`. -/
def defaultBrandColors : List (String × String) :=
  [("Apple", "#007AFF"), ("Samsung", "#1f77b4"), ("Google", "#ff7f0e"),
   ("OnePlus", "#2ca02c"), ("Xiaomi", "#d62728"), ("Netflix", "#E50914"),
   ("Spotify", "#1DB954"), ("Disney", "#0063D1"), ("Amazon", "#FF9900"),
   ("YouTube", "#FF0000"), ("Hulu", "#66AA33"), ("HBO", "#8A2BE2"),
   ("Coursera", "#0056D3"), ("LinkedIn", "#0077B5"), ("MasterClass", "#EA4335")]

/-- The rotating palette of `_get_brand_colors`. -/
def availableColors : List String :=
  ["#007AFF", "#1f77b4", "#ff7f0e", "#2ca02c", "#d62728",
   "#9467bd", "#8c564b", "#e377c2", "#7f7f7f", "#bcbd22", "#17becf"]

/-- The color assigned to the `i`-th first-seen brand token `b`: its fixed
table entry when known, otherwise `available_colors[i % len(available_colors)]`. -/
def brandColorValue (i : ℕ) (b : String) : String :=
  match defaultBrandColors.lookup b with
  | some c => c
  | none => availableColors.getD (i % availableColors.length) "#666666"

/-- `_get_brand_colors` on the values of the `brand` column: one entry per
first-seen brand, in first-seen order (a Python dict keyed by brand). -/
def brandColorsOf (brands : List String) : List (String × String) :=
  (withIdx 0 (uniqueOrder brands)).map (fun p => (p.2, brandColorValue p.1 p.2))

/-- `_get_brand_colors` of the analyzer's processed table (`none` models the
KeyError when the `brand` column is missing or non-textual). -/
def getBrandColors (p : Dataset) : Option (List (String × String)) :=
  (colStrs p "brand").map brandColorsOf

/-- `product_name.split()[0] if ' ' in product_name else product_name`. -/
def spaceToken (s : String) : String :=
  if s.data.contains ' ' then ⟨(s.data.dropWhile (fun ch => ch = ' ')).takeWhile (fun ch => ch ≠ ' ')⟩ else s

/-- `int((100 + min(700, frequency * 8)) * 1.5)`. -/
def bubbleSize (f : ℕ) : ℤ :=
  ⌊(((100 + min 700 (f * 8) : ℕ) : ℚ) * (3 / 2))⌋

/-- The values of the rows of a given subject in a value column, pairing the
subject column with the value column row by row. -/
def groupVals (subj : List String) (vals : List ℚ) (s : String) : List ℚ :=
  ((subj.zip vals).filter (fun p => p.1 = s)).map (·.2)

/-- One aggregated point of the scatter plot. -/
structure Point where
  subject : String
  x : ℚ
  y : ℚ
  count : ℕ
  size : ℤ
  color : String
deriving DecidableEq

/-- The renderable scene produced by `create_perceptual_map`. -/
structure MapScene where
  points : List Point
  colors : List (String × String)
  xLim : ℚ × ℚ
  yLim : ℚ × ℚ
  refX : ℚ
  refY : ℚ
  quadrants : List (ℚ × ℚ × String)
deriving DecidableEq

/-- The aggregated point of one subject: means of the two selected columns
over the subject's rows, the row count, the saturating bubble size, and the
color looked up by the leading space-token of the subject name. -/
def mkPoint (subj : List String) (xs ys : List ℚ) (colors : List (String × String))
    (s : String) : Point :=
  { subject := s
    x := qmean (groupVals subj xs s)
    y := qmean (groupVals subj ys s)
    count := (subj.filter (fun t => t = s)).length
    size := bubbleSize (subj.filter (fun t => t = s)).length
    color := (colors.lookup (spaceToken s)).getD "#666666" }

/-- `groupby('phone_model').agg(mean, mean, count)`: one point per distinct
subject, in sorted key order. -/
def aggregate (subj : List String) (xs ys : List ℚ)
    (colors : List (String × String)) : List Point :=
  (subjectsSorted subj).map (mkPoint subj xs ys colors)

def listMin : List ℚ → ℚ
  | [] => 0
  | v :: vs => vs.foldl min v

def listMax : List ℚ → ℚ
  | [] => 0
  | v :: vs => vs.foldl max v

/-- 10% of the range of the aggregated values, the range floored at 0.5. -/
def axisPadding (vals : List ℚ) : ℚ :=
  max (listMax vals - listMin vals) (1/2) / 10

/-- The layout part of `create_perceptual_map`: aggregated points, padded
axis extents, reference lines at the aggregated means, and the four quadrant
labels placed a third of the padding inside the aggregated data corners. -/
def buildScene (subj : List String) (xs ys : List ℚ)
    (colors : List (String × String)) : MapScene :=
  let pts := aggregate subj xs ys colors
  let axs := pts.map Point.x
  let ays := pts.map Point.y
  let lo := listMin axs
  let hi := listMax axs
  let lo' := listMin ays
  let hi' := listMax ays
  let px := axisPadding axs
  let py := axisPadding ays
  { points := pts
    colors := colors
    xLim := (lo - px, hi + px)
    yLim := (lo' - py, hi' + py)
    refX := qmean axs
    refY := qmean ays
    quadrants :=
      [(hi - px/3, hi' - py/3, "Leaders"),
       (lo + px/3, hi' - py/3, "Niche Players"),
       (lo + px/3, lo' + py/3, "Challenged"),
       (hi - px/3, lo' + py/3, "Specialists")] }

/-- Failure conditions of `create_perceptual_map`. -/
inductive MapError where
  | invalidDimension (dim : String) (valid : List String)
  | keyError (key : String)
deriving DecidableEq

instance {ε α : Type} [DecidableEq ε] [DecidableEq α] : DecidableEq (Except ε α) :=
  fun a b =>
    match a, b with
    | .error e, .error f =>
      if h : e = f then isTrue (by rw [h]) else isFalse (by intro hc; cases hc; exact h rfl)
    | .error _, .ok _ => isFalse (by intro hc; cases hc)
    | .ok _, .error _ => isFalse (by intro hc; cases hc)
    | .ok x, .ok y =>
      if h : x = y then isTrue (by rw [h]) else isFalse (by intro hc; cases hc; exact h rfl)

/-- `create_perceptual_map`: validate the two axis names against the
available dimensions (raising with the list of valid alternatives), then
fetch the two value columns, the brand colors and the subject column, and
build the scene. -/
def createPerceptualMap (a : Analyzer) (x y : String) : Except MapError MapScene :=
  let dims := availableDimensions a.data
  if x ∉ dims then .error (.invalidDimension x dims)
  else if y ∉ dims then .error (.invalidDimension y dims)
  else
    match colNums a.processed x with
    | none => .error (.keyError x)
    | some xs =>
      match colNums a.processed y with
      | none => .error (.keyError y)
      | some ys =>
        match getBrandColors a.processed with
        | none => .error (.keyError "brand")
        | some colors =>
          match colStrs a.processed "phone_model" with
          | none => .error (.keyError "phone_model")
          | some subj => .ok (buildScene subj xs ys colors)

/-- The dictionary returned by `get_analysis_summary`. -/
structure Summary where
  total_products : ℕ
  available_dimensions : List String
  possible_maps : ℕ
  brands : ℕ
  categories : ℕ
  identifier_column : Option String
  category_columns : List String
  rating_columns : List String
deriving DecidableEq

/-- `get_analysis_summary` (`none` models the KeyError on a missing `brand`
or `tier` column of the processed table). -/
def getAnalysisSummary (a : Analyzer) : Option Summary :=
  let dims := availableDimensions a.data
  match lookupCol a.processed "brand" with
  | none => none
  | some bc =>
    match lookupCol a.processed "tier" with
    | none => none
    | some tc =>
      some
        { total_products := nRows a.processed
          available_dimensions := dims
          possible_maps := dims.length * (dims.length - 1) / 2
          brands := bc.data.nunique
          categories := tc.data.nunique
          identifier_column := findIdentifierColumn a.data
          category_columns := findCategoryColumns a.data
          rating_columns := findRatingColumns a.data }

/-- A table as a list of rows (subject, x-value, y-value), the view used to
state row-duplication properties of the aggregation. -/
def buildSceneRows (rows : List (String × ℚ × ℚ)) : MapScene :=
  buildScene (rows.map Prod.fst) (rows.map (fun r => r.2.1)) (rows.map (fun r => r.2.2)) []

/-- Replace every row of subject `s` by two exact copies of it. -/
def doubleSubject (s : String) (rows : List (String × ℚ × ℚ)) : List (String × ℚ × ℚ) :=
  rows.flatMap (fun r => if r.1 = s then [r, r] else [r])

/-! ### Concrete datasets used to instantiate the theorems -/

/-- Numeric column literally named `popularity` whose range fits a rating
band, plus an ordinary rating column. -/
def dsC3 : Dataset :=
  ⟨[⟨"popularity", .nums [1, 2]⟩, ⟨"quality", .nums [7, 9]⟩]⟩

/-- Three products, two survey rows each (the spec's concrete scenario). -/
def dsC4 : Dataset :=
  ⟨[⟨"product", .strs ["A", "A", "B", "B", "C", "C"]⟩,
    ⟨"camera", .nums [8, 8, 6, 6, 7, 7]⟩,
    ⟨"price", .nums [4, 6, 2, 3, 5, 6]⟩]⟩

def aC4 : Analyzer := ⟨dsC4, (prepareData dsC4).getD ⟨[]⟩⟩

def scC4 : MapScene :=
  (createPerceptualMap aC4 "camera" "price").toOption.getD ⟨[], [], (0, 0), (0, 0), 0, 0, []⟩

/-- Every row has the same mean rating (5), so the synthetic-weight
min-max normalization divides by zero. -/
def dsC5 : Dataset :=
  ⟨[⟨"product", .strs ["A", "B"]⟩, ⟨"quality", .nums [5, 5]⟩]⟩

/-- 88 identical survey rows for one subject: `88 * 8 > 700`, so the bubble
size is already saturated at 1200. -/
def rows88 : List (String × ℚ × ℚ) := List.replicate 88 ("A", (8 : ℚ), (5 : ℚ))

/-- A single-row table used to instantiate the row-duplication theorem. -/
def rowsC6 : List (String × ℚ × ℚ) := [("A", 1, 2)]

/-- Two products with two rating columns, distinct row means. -/
def dsC7 : Dataset :=
  ⟨[⟨"product", .strs ["A", "B"]⟩, ⟨"camera", .nums [8, 6]⟩, ⟨"price", .nums [4, 2]⟩]⟩

def aC7 : Analyzer := ⟨dsC7, (prepareData dsC7).getD ⟨[]⟩⟩

def scC7 : MapScene :=
  (createPerceptualMap aC7 "camera" "price").toOption.getD ⟨[], [], (0, 0), (0, 0), 0, 0, []⟩

/-- Four available rating dimensions. -/
def dsC9a : Dataset :=
  ⟨[⟨"product", .strs ["A", "B"]⟩, ⟨"camera", .nums [8, 6]⟩, ⟨"price", .nums [4, 2]⟩,
    ⟨"battery", .nums [7, 5]⟩, ⟨"screen", .nums [3, 1]⟩]⟩

def aC9a : Analyzer := ⟨dsC9a, (prepareData dsC9a).getD ⟨[]⟩⟩

def sC9a : Summary := (getAnalysisSummary aC9a).getD ⟨0, [], 0, 0, 0, none, [], []⟩

/-- Exactly one available rating dimension. -/
def dsC9b : Dataset :=
  ⟨[⟨"product", .strs ["A", "B"]⟩, ⟨"quality", .nums [7, 9]⟩]⟩

def aC9b : Analyzer := ⟨dsC9b, (prepareData dsC9b).getD ⟨[]⟩⟩

def sC9b : Summary := (getAnalysisSummary aC9b).getD ⟨0, [], 0, 0, 0, none, [], []⟩

/-- No textual column, no `phone_model`/`brand` column, all row means equal:
construction itself fails in the synthetic-weight computation. -/
def dsC10bad : Dataset := ⟨[⟨"q", .nums [5, 5]⟩]⟩

/-- No textual column, no `phone_model`/`brand` column, distinct row means:
construction succeeds but no `brand` column is ever synthesized. -/
def dsC10 : Dataset := ⟨[⟨"q", .nums [5, 7]⟩]⟩

def pC10 : Dataset := (prepareData dsC10).getD ⟨[]⟩

/-! ### Helper lemmas -/

section Proofs

/- The Batteries rational-number operations are `[irreducible]`, which stops
`decide` from evaluating concrete datasets; re-enable unfolding locally. -/
attribute [local semireducible] Rat.mul Rat.inv Rat.add Rat.sub

lemma mem_uniqueOrderGo (l : List String) :
    ∀ (seen : List String) (a : String),
      a ∈ uniqueOrderGo seen l ↔ a ∈ l ∧ a ∉ seen := by
  induction l with
  | nil => intro seen a; simp [uniqueOrderGo]
  | cons x xs ih =>
    intro seen a
    unfold uniqueOrderGo
    by_cases hx : x ∈ seen
    · rw [if_pos hx, ih seen a]
      constructor
      · exact fun ⟨h1, h2⟩ => ⟨List.mem_cons_of_mem _ h1, h2⟩
      · rintro ⟨h1, h2⟩
        rcases List.mem_cons.mp h1 with h1 | h1
        · exact absurd (h1 ▸ hx) h2
        · exact ⟨h1, h2⟩
    · rw [if_neg hx]
      simp only [List.mem_cons, ih (x :: seen) a, List.mem_cons]
      constructor
      · rintro (h | ⟨h1, h2⟩)
        · exact ⟨Or.inl h, h ▸ hx⟩
        · exact ⟨Or.inr h1, fun hs => h2 (Or.inr hs)⟩
      · rintro ⟨h1, h2⟩
        by_cases hax : a = x
        · exact Or.inl hax
        · rcases h1 with h1 | h1
          · exact absurd h1 hax
          · exact Or.inr ⟨h1, fun hs => by
              rcases hs with hs | hs
              · exact hax hs
              · exact h2 hs⟩

lemma mem_uniqueOrder (l : List String) (a : String) : a ∈ uniqueOrder l ↔ a ∈ l := by
  unfold uniqueOrder
  rw [mem_uniqueOrderGo]
  simp

lemma mem_subjectsSorted (subj : List String) (s : String) :
    s ∈ subjectsSorted subj ↔ s ∈ subj := by
  unfold subjectsSorted
  rw [(List.perm_insertionSort _ _).mem_iff, mem_uniqueOrder]

/-- `argmaxF f b l` splits `b :: l` into a prefix of strictly smaller scores,
the returned element, and a suffix of no-larger scores: it is the first
element attaining the maximum. -/
lemma argmaxF_spec (f : String → ℕ) (l : List String) (b : String) :
    ∃ pre post, b :: l = pre ++ argmaxF f b l :: post ∧
      (∀ x ∈ pre, f x < f (argmaxF f b l)) ∧
      (∀ x ∈ post, f x ≤ f (argmaxF f b l)) := by
  induction l generalizing b with
  | nil => exact ⟨[], [], rfl, by simp, by simp⟩
  | cons x xs ih =>
    by_cases h : f x > f b
    · have e : argmaxF f b (x :: xs) = argmaxF f x xs := by simp [argmaxF, h]
      rw [e]
      obtain ⟨pre, post, hsplit, hpre, hpost⟩ := ih x
      refine ⟨b :: pre, post, by rw [List.cons_append, ← hsplit], ?_, hpost⟩
      intro z hz
      rcases List.mem_cons.mp hz with hz | hz
      · subst hz
        rcases pre with _ | ⟨p, pre'⟩
        · simp only [List.nil_append, List.cons.injEq] at hsplit
          calc f z < f x := h
            _ = f (argmaxF f x xs) := by rw [← hsplit.1]
        · simp only [List.cons_append, List.cons.injEq] at hsplit
          have hxmem : x ∈ p :: pre' := by rw [hsplit.1]; exact List.mem_cons_self _ _
          exact lt_trans h (hpre x hxmem)
      · exact hpre z hz
    · have e : argmaxF f b (x :: xs) = argmaxF f b xs := by simp [argmaxF, h]
      rw [e]
      obtain ⟨pre, post, hsplit, hpre, hpost⟩ := ih b
      rcases pre with _ | ⟨p, pre'⟩
      · simp only [List.nil_append, List.cons.injEq] at hsplit
        refine ⟨[], x :: post, ?_, by simp, ?_⟩
        · simp only [List.nil_append]
          rw [← hsplit.1, ← hsplit.2]
        · intro z hz
          rcases List.mem_cons.mp hz with hz | hz
          · subst hz
            calc f z ≤ f b := le_of_not_lt h
              _ = f (argmaxF f b xs) := congrArg f hsplit.1
          · exact hpost z hz
      · simp only [List.cons_append, List.cons.injEq] at hsplit
        have hp : p = b ∧ xs = pre' ++ argmaxF f b xs :: post :=
          ⟨hsplit.1.symm, hsplit.2⟩
        have hfb : f b < f (argmaxF f b xs) := by
          have : p ∈ p :: pre' := List.mem_cons_self _ _
          have := hpre p this
          rwa [hp.1] at this
        refine ⟨b :: x :: pre', post, ?_, ?_, hpost⟩
        · simp only [List.cons_append]
          rw [← hp.2]
        · intro z hz
          rcases List.mem_cons.mp hz with hz | hz
          · subst hz; exact hfb
          rcases List.mem_cons.mp hz with hz | hz
          · subst hz; exact lt_of_le_of_lt (le_of_not_lt h) hfb
          · exact hpre z (by rw [hp.1]; exact List.mem_cons_of_mem _ hz)

/-- The bubble size in closed integer form: the pre-scaling value
`100 + min(700, 8f)` is always even, so the `* 1.5` truncation is exact. -/
lemma bubbleSize_eq (f : ℕ) : bubbleSize f = 150 + 3 * (min 350 (f * 4) : ℕ) := by
  unfold bubbleSize
  have h : (100 + min 700 (f * 8)) = 2 * (50 + min 350 (f * 4)) := by omega
  rw [h]
  have h2 : (((2 * (50 + min 350 (f * 4)) : ℕ) : ℚ) * (3 / 2))
      = (((150 + 3 * (min 350 (f * 4) : ℕ) : ℤ) : ℚ)) := by
    push_cast
    ring
  rw [h2, Int.floor_intCast]

lemma bubbleSize_mono {a b : ℕ} (h : a ≤ b) : bubbleSize a ≤ bubbleSize b := by
  rw [bubbleSize_eq, bubbleSize_eq]
  have : min 350 (a * 4) ≤ min 350 (b * 4) := by omega
  omega

lemma bubbleSize_double_lt {a : ℕ} (h1 : 1 ≤ a) (h2 : a < 88) :
    bubbleSize a < bubbleSize (2 * a) := by
  rw [bubbleSize_eq, bubbleSize_eq]
  have : min 350 (a * 4) < min 350 (2 * a * 4) := by omega
  omega

lemma points_buildScene (subj : List String) (xs ys : List ℚ)
    (colors : List (String × String)) :
    (buildScene subj xs ys colors).points
      = (subjectsSorted subj).map (mkPoint subj xs ys colors) := rfl

/-- Pairing two projected columns of a row list and grouping recovers a
filter over the rows. -/
lemma groupVals_rows (rows : List (String × ℚ × ℚ)) (f : String × ℚ × ℚ → ℚ)
    (s : String) :
    groupVals (rows.map Prod.fst) (rows.map f) s
      = (rows.filter (fun r => r.1 = s)).map f := by
  unfold groupVals
  rw [List.zip_map']
  rw [List.filter_map, List.map_map]
  rfl

lemma filter_doubleSubject (s : String) (rows : List (String × ℚ × ℚ)) :
    (doubleSubject s rows).filter (fun r => r.1 = s)
      = (rows.filter (fun r => r.1 = s)).flatMap (fun r => [r, r]) := by
  induction rows with
  | nil => rfl
  | cons r rows ih =>
    unfold doubleSubject at ih ⊢
    simp only [List.flatMap_cons, List.filter_append, ih, List.filter_cons]
    by_cases h : r.1 = s <;> simp [h]

lemma length_flatMap_pair {α : Type} (l : List α) :
    (l.flatMap (fun v => [v, v])).length = 2 * l.length := by
  induction l with
  | nil => rfl
  | cons v l ih => simp only [List.flatMap_cons, List.length_append, ih]; simp; omega

lemma map_flatMap_pair {α β : Type} (g : α → β) (l : List α) :
    (l.flatMap (fun v => [v, v])).map g = (l.map g).flatMap (fun v => [v, v]) := by
  induction l with
  | nil => rfl
  | cons v l ih => simp only [List.flatMap_cons, List.map_append, ih, List.map_cons]; rfl

lemma sum_flatMap_pair (l : List ℚ) :
    (l.flatMap (fun v => [v, v])).sum = 2 * l.sum := by
  induction l with
  | nil => simp
  | cons v l ih => simp only [List.flatMap_cons, List.sum_append, ih]; simp; ring

/-- Duplicating every element of a list leaves its mean unchanged. -/
lemma qmean_flatMap_pair (l : List ℚ) :
    qmean (l.flatMap (fun v => [v, v])) = qmean l := by
  unfold qmean
  rw [sum_flatMap_pair, length_flatMap_pair]
  push_cast
  exact mul_div_mul_left _ _ (by norm_num)

lemma lookup_brandColors (l : List String) (n : ℕ) (b : String) (hb : b ∈ l) :
    (((withIdx n l).map (fun p => (p.2, brandColorValue p.1 p.2))).lookup b)
      = some (brandColorValue (n + firstIdx b l) b) := by
  induction l generalizing n with
  | nil => cases hb
  | cons x xs ih =>
    unfold withIdx
    simp only [List.map_cons, List.lookup_cons]
    by_cases h : x = b
    · subst h
      simp [firstIdx]
    · have hb' : b ∈ xs := by
        rcases List.mem_cons.mp hb with hc | hc
        · exact absurd hc.symm h
        · exact hc
      have hbeq : (b == x) = false := by
        simp
        exact fun he => h he.symm
      rw [hbeq]
      simp only [Bool.false_eq_true, if_false]
      rw [ih (n + 1) hb']
      have : (n + 1) + firstIdx b xs = n + firstIdx b (x :: xs) := by
        show (n + 1) + firstIdx b xs = n + (if x = b then 0 else firstIdx b xs + 1)
        rw [if_neg h]
        omega
      rw [this]

lemma colNames_renameCol (ds : Dataset) (old nw : String) :
    colNames (renameCol ds old nw)
      = (colNames ds).map (fun x => if x = old then nw else x) := by
  unfold colNames renameCol
  simp only [List.map_map]
  congr 1
  funext c
  by_cases h : c.name = old <;> simp [Function.comp, h]

lemma colNames_addCol (ds : Dataset) (n : String) (d : ColData) :
    colNames (addCol ds n d) = colNames ds ++ [n] := by
  simp [colNames, addCol]

lemma not_mem_renameCol {ds : Dataset} {old nw b : String}
    (h1 : b ∉ colNames ds) (h2 : b ≠ nw) : b ∉ colNames (renameCol ds old nw) := by
  rw [colNames_renameCol]
  intro hm
  obtain ⟨x, hx, hxe⟩ := List.mem_map.mp hm
  by_cases h : x = old
  · rw [if_pos h] at hxe
    exact h2 hxe.symm
  · rw [if_neg h] at hxe
    exact h1 (hxe ▸ hx)

lemma not_mem_addCol {ds : Dataset} {n b : String} {d : ColData}
    (h1 : b ∉ colNames ds) (h2 : b ≠ n) : b ∉ colNames (addCol ds n d) := by
  rw [colNames_addCol]
  intro hm
  rcases List.mem_append.mp hm with hm | hm
  · exact h1 hm
  · exact h2 (List.mem_singleton.mp hm)

lemma lookupCol_eq_none {ds : Dataset} {n : String} (h : n ∉ colNames ds) :
    lookupCol ds n = none := by
  unfold lookupCol
  rw [List.find?_eq_none]
  intro c hc
  simp only [decide_eq_true_eq]
  intro he
  exact h (he ▸ List.mem_map_of_mem (·.name) hc)

lemma stringColumns_eq_nil_of {ds : Dataset} (h : stringColumns ds = []) :
    ∀ c ∈ ds.cols, c.data.isStr = false := by
  intro c hc
  by_contra hb
  have : c ∈ ds.cols.filter (fun c => c.data.isStr) :=
    List.mem_filter.mpr ⟨hc, by simpa using hb⟩
  have : c.name ∈ stringColumns ds := List.mem_map_of_mem (·.name) this
  rw [h] at this
  cases this

/-- `prepPopularity` never introduces a `brand` column. -/
lemma prepPopularity_brand {ds d p : Dataset} (hbr : "brand" ∉ colNames d)
    (hp : prepPopularity ds d = some p) : "brand" ∉ colNames p := by
  unfold prepPopularity at hp
  split at hp
  · rw [← Option.some.inj hp]
    exact hbr
  · split at hp
    · rw [← Option.some.inj hp]
      exact not_mem_renameCol hbr (by decide)
    · split at hp
      · rw [← Option.some.inj hp]
        exact not_mem_addCol hbr (by decide)
      · split at hp
        · exact Option.noConfusion hp
        · split at hp
          · rw [← Option.some.inj hp]
            exact not_mem_addCol hbr (by decide)
          · split at hp
            · exact Option.noConfusion hp
            · rw [← Option.some.inj hp]
              exact not_mem_addCol hbr (by decide)

lemma cpm_invalid_x {a : Analyzer} {x y : String}
    (hx : x ∉ availableDimensions a.data) :
    createPerceptualMap a x y
      = .error (.invalidDimension x (availableDimensions a.data)) := by
  unfold createPerceptualMap
  rw [if_pos hx]

lemma cpm_invalid_y {a : Analyzer} {x y : String}
    (hx : x ∈ availableDimensions a.data) (hy : y ∉ availableDimensions a.data) :
    createPerceptualMap a x y
      = .error (.invalidDimension y (availableDimensions a.data)) := by
  unfold createPerceptualMap
  rw [if_neg (not_not_intro hx), if_pos hy]

lemma cpm_no_invalid {a : Analyzer} {x y : String}
    (hx : x ∈ availableDimensions a.data) (hy : y ∈ availableDimensions a.data) :
    ∀ d l, createPerceptualMap a x y ≠ .error (.invalidDimension d l) := by
  intro d l
  unfold createPerceptualMap
  rw [if_neg (not_not_intro hx), if_neg (not_not_intro hy)]
  rcases hc1 : colNums a.processed x with _ | xs
  · simp
  rcases hc2 : colNums a.processed y with _ | ys
  · simp
  rcases hc3 : getBrandColors a.processed with _ | colors
  · simp
  rcases hc4 : colStrs a.processed "phone_model" with _ | subj
  · simp
  · simp

/-- C1: `create_perceptual_map` raises `InvalidDimension` exactly when one of
the two requested axis names is not among the available rating dimensions,
and the raised error always carries the list of valid alternatives; for a
pair of names both drawn from that list it never raises `InvalidDimension`. -/
theorem C1_invalid_dimension_iff (a : Analyzer) (x y : String) :
    ((∃ d l, createPerceptualMap a x y = .error (.invalidDimension d l))
      ↔ (x ∉ availableDimensions a.data ∨ y ∉ availableDimensions a.data))
    ∧ (∀ d l, createPerceptualMap a x y = .error (.invalidDimension d l)
        → l = availableDimensions a.data) := by
  constructor
  · constructor
    · rintro ⟨d, l, hd⟩
      by_contra hcon
      push_neg at hcon
      exact cpm_no_invalid hcon.1 hcon.2 d l hd
    · rintro (h | h)
      · exact ⟨x, availableDimensions a.data, cpm_invalid_x h⟩
      · by_cases hx : x ∈ availableDimensions a.data
        · exact ⟨y, availableDimensions a.data, cpm_invalid_y hx h⟩
        · exact ⟨x, availableDimensions a.data, cpm_invalid_x hx⟩
  · intro d l hd
    by_cases hx : x ∈ availableDimensions a.data
    · by_cases hy : y ∈ availableDimensions a.data
      · exact absurd hd (cpm_no_invalid hx hy d l)
      · rw [cpm_invalid_y hx hy] at hd
        simp only [Except.error.injEq, MapError.invalidDimension.injEq] at hd
        exact hd.2.symm
    · rw [cpm_invalid_x hx] at hd
      simp only [Except.error.injEq, MapError.invalidDimension.injEq] at hd
      exact hd.2.symm

/-- C1 witness: a name that is not an available dimension of the concrete
dataset `dsC4` makes the build fail with `InvalidDimension`. -/
theorem C1_invalid_dimension_iff_witness :
    ∃ d l, createPerceptualMap aC4 "nope" "price"
      = .error (.invalidDimension d l) :=
  (C1_invalid_dimension_iff aC4 "nope" "price").1.mpr (Or.inl (by decide))

/-- C2: for a dataset with at least one textual column (datasets are
non-empty), the chosen identifier column is the textual column maximizing the
keyword/uniqueness/length score, ties broken by original ordinal position
(first wins); with no textual column the identifier is null. -/
theorem C2_identifier_selection (ds : Dataset) (_h0 : 0 < nRows ds) :
    (stringColumns ds = [] → findIdentifierColumn ds = none) ∧
    (stringColumns ds ≠ [] → ∃ c pre post,
      findIdentifierColumn ds = some c ∧
      stringColumns ds = pre ++ c :: post ∧
      (∀ x ∈ pre, scoreOf ds x < scoreOf ds c) ∧
      (∀ x ∈ post, scoreOf ds x ≤ scoreOf ds c)) := by
  constructor
  · intro h
    unfold findIdentifierColumn
    rw [h]
  · intro h
    rcases he : stringColumns ds with _ | ⟨c0, cs⟩
    · exact absurd he h
    · obtain ⟨pre, post, hsplit, hpre, hpost⟩ := argmaxF_spec (scoreOf ds) cs c0
      refine ⟨argmaxF (scoreOf ds) c0 cs, pre, post, ?_, ?_, hpre, hpost⟩
      · unfold findIdentifierColumn
        rw [he]
      · exact hsplit

/-- C2 witness: on the concrete dataset `dsC4` the selection property holds
(the single textual column `product` is chosen). -/
theorem C2_identifier_selection_witness :
    ∃ c pre post,
      findIdentifierColumn dsC4 = some c ∧
      stringColumns dsC4 = pre ++ c :: post ∧
      (∀ x ∈ pre, scoreOf dsC4 x < scoreOf dsC4 c) ∧
      (∀ x ∈ post, scoreOf dsC4 x ≤ scoreOf dsC4 c) :=
  (C2_identifier_selection dsC4 (by decide)).2 (by decide)

/-- C3 counterexample: the numeric column literally named `popularity` of
`dsC3` satisfies a rating band (it is a detected rating column) and yet does
not appear in the available dimensions, refuting the claim as stated. -/
theorem C3_counterexample :
    "popularity" ∈ numericColumns dsC3 ∧
    isRatingCol ⟨"popularity", .nums [1, 2]⟩ = true ∧
    "popularity" ∈ findRatingColumns dsC3 ∧
    "popularity" ∉ availableDimensions dsC3 := by decide

/-- C3 (amended): every numeric column whose observed (min, max) satisfies a
rating band appears in `get_available_dimensions`, provided its name is not
one of the reserved metadata names `phone_model`/`brand`/`tier`/`popularity`
(column names being unique). -/
theorem C3_rating_column_available (ds : Dataset) (c : Col)
    (hnodup : (colNames ds).Nodup) (hc : c ∈ ds.cols) (hnum : c.data.isNum = true)
    (hband : isRatingCol c = true)
    (hname : c.name ∉ ["phone_model", "brand", "tier", "popularity"]) :
    c.name ∈ availableDimensions ds := by
  have hrat : c.name ∈ findRatingColumns ds := by
    unfold findRatingColumns
    exact List.mem_map_of_mem _ (List.mem_filter.mpr ⟨List.mem_filter.mpr ⟨hc, hnum⟩, hband⟩)
  unfold availableDimensions
  refine List.mem_filter.mpr ⟨hrat, ?_⟩
  simp only [decide_eq_true_eq]
  intro hmem
  rcases List.mem_append.mp hmem with hmem | hmem
  · exact hname hmem
  · unfold findCategoryColumns at hmem
    obtain ⟨c2, hc2, hce⟩ := List.mem_map.mp hmem
    have hc2f := List.mem_filter.mp hc2
    have hc2f2 := List.mem_filter.mp hc2f.1
    have heq : c2 = c := List.inj_on_of_nodup_map hnodup hc2f2.1 hc hce
    rw [heq] at hc2f2
    cases hd : c.data with
    | nums vs =>
      have := hc2f2.2
      rw [hd] at this
      simp [ColData.isStr] at this
    | strs vs =>
      rw [hd] at hnum
      simp [ColData.isNum] at hnum

/-- C3 witness: the amended statement applied to the rating column `quality`
of `dsC3`, whose name is not reserved. -/
theorem C3_rating_column_available_witness :
    "quality" ∈ availableDimensions dsC3 :=
  C3_rating_column_available dsC3 ⟨"quality", .nums [7, 9]⟩
    (by decide) (by decide) (by decide) (by decide) (by decide)

/-- C4: the built map holds exactly one point per distinct subject, at the
mean of the two selected columns over the subject's rows, with the row count
and the bubble size `(100 + min(700, count*8)) * 1.5`; concretely, on `dsC4`
subject `A` with rows camera {8, 8} and price {4, 6} aggregates to
(camera 8.0, price 5.0), response count 2 and bubble size 174. -/
theorem C4_aggregation :
    (∀ (subj : List String) (xs ys : List ℚ) (colors : List (String × String))
        (s : String), s ∈ subj →
      ∃ p, p ∈ (buildScene subj xs ys colors).points ∧ p.subject = s ∧
        p.x = qmean (groupVals subj xs s) ∧ p.y = qmean (groupVals subj ys s) ∧
        p.count = (subj.filter (fun t => t = s)).length ∧
        p.size = bubbleSize p.count ∧
        (∀ q ∈ (buildScene subj xs ys colors).points, q.subject = s → q = p)) ∧
    (mkAnalyzer dsC4 = some aC4 ∧
      createPerceptualMap aC4 "camera" "price" = Except.ok scC4 ∧
      ∃ p, p ∈ scC4.points ∧ p.subject = "A" ∧ p.x = 8 ∧ p.y = 5 ∧
        p.count = 2 ∧ p.size = 174) := by
  constructor
  · intro subj xs ys colors s hs
    refine ⟨mkPoint subj xs ys colors s, ?_, rfl, rfl, rfl, rfl, rfl, ?_⟩
    · rw [points_buildScene]
      exact List.mem_map_of_mem _ ((mem_subjectsSorted subj s).mpr hs)
    · intro q hq hqs
      rw [points_buildScene] at hq
      obtain ⟨t, _ht, hte⟩ := List.mem_map.mp hq
      have hts : t = s := by rw [← hqs, ← hte]; rfl
      rw [← hte, hts]
  · refine ⟨by decide, by decide, ⟨"A", 8, 5, 2, 174, "#007AFF"⟩, by decide,
      rfl, by decide, by decide, by decide, by decide⟩

/-- C4 witness: the universal part instantiated on a tiny concrete table. -/
theorem C4_aggregation_witness :
    ∃ p, p ∈ (buildScene ["A", "B"] [1, 2] [3, 4] []).points ∧ p.subject = "A" ∧
      p.x = qmean (groupVals ["A", "B"] [1, 2] "A") ∧
      p.y = qmean (groupVals ["A", "B"] [3, 4] "A") ∧
      p.count = (["A", "B"].filter (fun t => t = "A")).length ∧
      p.size = bubbleSize p.count ∧
      (∀ q ∈ (buildScene ["A", "B"] [1, 2] [3, 4] []).points, q.subject = "A" → q = p) :=
  C4_aggregation.1 ["A", "B"] [1, 2] [3, 4] [] "A" (by decide)

/-- C5: evaluation of the code at the failing input.  `dsC5` is non-empty,
has a detected rating column, no popularity column, and every row shares the
same mean rating; the synthetic-weight min-max normalization divides by zero
(0/0 gives NaN and `.astype(int)` raises), so `_prepare_data` — and hence
analyzer construction — fails, contradicting the never-fails claim. -/
theorem C5_degenerate_weight_fails :
    0 < nRows dsC5 ∧ findRatingColumns dsC5 = ["quality"] ∧
    (findSpecialColumns dsC5).1 = none ∧ prepareData dsC5 = none ∧
    mkAnalyzer dsC5 = none := by decide

set_option maxRecDepth 10000 in
/-- C6 counterexample: with 88 identical rows for subject `A`, doubling the
rows leaves the bubble size saturated at 1200 — the size does not move
upward, refuting the strict-increase reading of the claim (the means and the
saturation are both visible in the two aggregated points). -/
theorem C6_counterexample :
    (buildSceneRows rows88).points = [⟨"A", 8, 5, 88, 1200, "#666666"⟩] ∧
    (buildSceneRows (doubleSubject "A" rows88)).points
      = [⟨"A", 8, 5, 176, 1200, "#666666"⟩] := by decide

lemma count_filter_fst (rows : List (String × ℚ × ℚ)) (s : String) :
    ((rows.map Prod.fst).filter (fun t => t = s)).length
      = (rows.filter (fun r => r.1 = s)).length := by
  rw [List.filter_map, List.length_map]
  rfl

/-- C6 (amended): duplicating every row of a subject leaves that subject's
aggregated means unchanged and doubles its response count; the bubble size
never decreases, and it strictly increases exactly while the original count
is below the saturation point (`count * 8 < 700`, i.e. `count < 88`). -/
theorem C6_duplicate_rows (rows : List (String × ℚ × ℚ)) (s : String)
    (hs : s ∈ rows.map Prod.fst) :
    ∀ p ∈ (buildSceneRows rows).points,
      ∀ q ∈ (buildSceneRows (doubleSubject s rows)).points,
      p.subject = s → q.subject = s →
      q.x = p.x ∧ q.y = p.y ∧ q.count = 2 * p.count ∧ p.size ≤ q.size ∧
      (p.count < 88 → p.size < q.size) := by
  intro p hp q hq hps hqs
  unfold buildSceneRows at hp hq
  rw [points_buildScene] at hp hq
  obtain ⟨t1, _ht1, hte1⟩ := List.mem_map.mp hp
  have ht1 : t1 = s := by rw [← hps, ← hte1]; rfl
  obtain ⟨t2, _ht2, hte2⟩ := List.mem_map.mp hq
  have ht2 : t2 = s := by rw [← hqs, ← hte2]; rfl
  rw [ht1] at hte1
  rw [ht2] at hte2
  have hmean : ∀ f : String × ℚ × ℚ → ℚ,
      qmean (groupVals ((doubleSubject s rows).map Prod.fst)
        ((doubleSubject s rows).map f) s)
        = qmean (groupVals (rows.map Prod.fst) (rows.map f) s) := by
    intro f
    rw [groupVals_rows, groupVals_rows, filter_doubleSubject, map_flatMap_pair,
      qmean_flatMap_pair]
  have hcnt : (((doubleSubject s rows).map Prod.fst).filter (fun t => t = s)).length
      = 2 * ((rows.map Prod.fst).filter (fun t => t = s)).length := by
    rw [count_filter_fst, count_filter_fst, filter_doubleSubject,
      length_flatMap_pair]
  have hpos : 1 ≤ ((rows.map Prod.fst).filter (fun t => t = s)).length := by
    have hm : s ∈ (rows.map Prod.fst).filter (fun t => t = s) :=
      List.mem_filter.mpr ⟨hs, by simp⟩
    exact List.length_pos.mpr (List.ne_nil_of_mem hm)
  rw [← hte1, ← hte2]
  refine ⟨hmean _, hmean _, hcnt, ?_, ?_⟩
  · exact bubbleSize_mono (by rw [hcnt]; omega)
  · intro hlt
    have hlt2 : ((rows.map Prod.fst).filter (fun t => t = s)).length < 88 := hlt
    show bubbleSize _ < bubbleSize _
    rw [hcnt]
    exact bubbleSize_double_lt hpos hlt2

/-- C6 witness: the amended statement on a one-row table, where the bubble
size strictly grows from 162 to 174. -/
theorem C6_duplicate_rows_witness :
    (⟨"A", 1, 2, 1, 162, "#666666"⟩ : Point).size
      < (⟨"A", 1, 2, 2, 174, "#666666"⟩ : Point).size :=
  (C6_duplicate_rows rowsC6 "A" (by decide)
    ⟨"A", 1, 2, 1, 162, "#666666"⟩ (by decide)
    ⟨"A", 1, 2, 2, 174, "#666666"⟩ (by decide) rfl rfl).2.2.2.2 (by decide)

/-- C7 counterexample: on `dsC7` the padded x-extent ends at 41/5 with
padding 1/5 (= 41/5 − 8), so a "Leaders" label inset one-third of the
padding from the padded corner would sit at 41/5 − 1/15 = 122/15; the scene
actually anchors it at 119/15 (a third of the padding inside the unpadded
data corner 8), refuting the position stated by the claim. -/
theorem C7_counterexample :
    mkAnalyzer dsC7 = some aC7 ∧
    createPerceptualMap aC7 "camera" "price" = Except.ok scC7 ∧
    scC7.quadrants.head? = some (119/15, 59/15, "Leaders") ∧
    scC7.xLim.2 = 41/5 ∧
    listMax (scC7.points.map Point.x) = 8 ∧
    axisPadding (scC7.points.map Point.x) = 1/5 ∧
    (41/5 - (1/5)/3 : ℚ) ≠ 119/15 := by decide

/-- C7 (amended): every successfully built scene carries exactly the four
quadrant labels "Leaders" (top right), "Niche Players" (top left),
"Challenged" (bottom left) and "Specialists" (bottom right), each anchored
one-third of the axis padding inside the corresponding corner of the
*unpadded* aggregated-data extents (equivalently four-thirds of the padding
inside the padded corners), the padded extents being the data extents
widened by the padding on each side. -/
theorem C7_quadrant_layout (a : Analyzer) (x y : String) (sc : MapScene)
    (h : createPerceptualMap a x y = Except.ok sc) :
    sc.quadrants =
      [(listMax (sc.points.map Point.x) - axisPadding (sc.points.map Point.x) / 3,
        listMax (sc.points.map Point.y) - axisPadding (sc.points.map Point.y) / 3,
        "Leaders"),
       (listMin (sc.points.map Point.x) + axisPadding (sc.points.map Point.x) / 3,
        listMax (sc.points.map Point.y) - axisPadding (sc.points.map Point.y) / 3,
        "Niche Players"),
       (listMin (sc.points.map Point.x) + axisPadding (sc.points.map Point.x) / 3,
        listMin (sc.points.map Point.y) + axisPadding (sc.points.map Point.y) / 3,
        "Challenged"),
       (listMax (sc.points.map Point.x) - axisPadding (sc.points.map Point.x) / 3,
        listMin (sc.points.map Point.y) + axisPadding (sc.points.map Point.y) / 3,
        "Specialists")] ∧
    sc.xLim = (listMin (sc.points.map Point.x) - axisPadding (sc.points.map Point.x),
               listMax (sc.points.map Point.x) + axisPadding (sc.points.map Point.x)) ∧
    sc.yLim = (listMin (sc.points.map Point.y) - axisPadding (sc.points.map Point.y),
               listMax (sc.points.map Point.y) + axisPadding (sc.points.map Point.y)) := by
  unfold createPerceptualMap at h
  by_cases hx : x ∉ availableDimensions a.data
  · rw [if_pos hx] at h
    exact Except.noConfusion h
  rw [if_neg hx] at h
  by_cases hy : y ∉ availableDimensions a.data
  · rw [if_pos hy] at h
    exact Except.noConfusion h
  rw [if_neg hy] at h
  rcases h1 : colNums a.processed x with _ | xs0
  · rw [h1] at h
    exact Except.noConfusion h
  rw [h1] at h
  rcases h2 : colNums a.processed y with _ | ys0
  · rw [h2] at h
    exact Except.noConfusion h
  rw [h2] at h
  rcases h3 : getBrandColors a.processed with _ | colors0
  · rw [h3] at h
    exact Except.noConfusion h
  rw [h3] at h
  rcases h4 : colStrs a.processed "phone_model" with _ | subj0
  · rw [h4] at h
    exact Except.noConfusion h
  rw [h4] at h
  have hbs : buildScene subj0 xs0 ys0 colors0 = sc := Except.ok.inj h
  rw [← hbs]
  exact ⟨rfl, rfl, rfl⟩

/-- C7 witness: the amended layout instantiated on the concrete scene of
`dsC7`. -/
theorem C7_quadrant_layout_witness :
    scC7.quadrants =
      [(listMax (scC7.points.map Point.x) - axisPadding (scC7.points.map Point.x) / 3,
        listMax (scC7.points.map Point.y) - axisPadding (scC7.points.map Point.y) / 3,
        "Leaders"),
       (listMin (scC7.points.map Point.x) + axisPadding (scC7.points.map Point.x) / 3,
        listMax (scC7.points.map Point.y) - axisPadding (scC7.points.map Point.y) / 3,
        "Niche Players"),
       (listMin (scC7.points.map Point.x) + axisPadding (scC7.points.map Point.x) / 3,
        listMin (scC7.points.map Point.y) + axisPadding (scC7.points.map Point.y) / 3,
        "Challenged"),
       (listMax (scC7.points.map Point.x) - axisPadding (scC7.points.map Point.x) / 3,
        listMin (scC7.points.map Point.y) + axisPadding (scC7.points.map Point.y) / 3,
        "Specialists")] :=
  (C7_quadrant_layout aC7 "camera" "price" scC7 (by decide)).1

/-- C8: the token-to-color assignment of `_get_brand_colors` is a
deterministic function of the dataset: two builds over the same data give
the same colors; the mapping depends only on the first-seen order of the
brand tokens; a known brand token always receives its fixed palette entry;
an unknown token at first-seen position `i` receives rotating palette color
`i % 11`. -/
theorem C8_color_determinism :
    (∀ (a : Analyzer) (x y : String) (sc sc2 : MapScene),
        createPerceptualMap a x y = .ok sc → createPerceptualMap a x y = .ok sc2 →
        sc.colors = sc2.colors) ∧
    (∀ p q : Dataset, colStrs p "brand" = colStrs q "brand" →
        getBrandColors p = getBrandColors q) ∧
    (∀ bs1 bs2 : List String, uniqueOrder bs1 = uniqueOrder bs2 →
        brandColorsOf bs1 = brandColorsOf bs2) ∧
    (∀ (bs : List String) (b c : String), defaultBrandColors.lookup b = some c →
        b ∈ bs → (brandColorsOf bs).lookup b = some c) ∧
    (∀ (bs : List String) (b : String), defaultBrandColors.lookup b = none →
        b ∈ bs → (brandColorsOf bs).lookup b
          = some (availableColors.getD
              (firstIdx b (uniqueOrder bs) % availableColors.length) "#666666")) := by
  refine ⟨?_, ?_, ?_, ?_, ?_⟩
  · intro a x y sc sc2 h h2
    rw [h] at h2
    rw [Except.ok.inj h2]
  · intro p q h
    unfold getBrandColors
    rw [h]
  · intro bs1 bs2 h
    unfold brandColorsOf
    rw [h]
  · intro bs b c hlook hb
    unfold brandColorsOf
    rw [lookup_brandColors _ 0 b ((mem_uniqueOrder bs b).mpr hb)]
    unfold brandColorValue
    rw [hlook]
  · intro bs b hlook hb
    unfold brandColorsOf
    rw [lookup_brandColors _ 0 b ((mem_uniqueOrder bs b).mpr hb)]
    unfold brandColorValue
    rw [hlook]
    rw [Nat.zero_add]

/-- C8 witness: on the concrete token sequence, the known brand `Apple`
keeps its fixed color and the unknown token `Yak` (first seen at index 2)
gets palette entry 2 % 11. -/
theorem C8_color_determinism_witness :
    (brandColorsOf ["Apple", "Zeta", "Apple", "Yak"]).lookup "Apple"
      = some "#007AFF" ∧
    (brandColorsOf ["Apple", "Zeta", "Apple", "Yak"]).lookup "Yak"
      = some "#ff7f0e" := by
  constructor
  · exact C8_color_determinism.2.2.2.1 ["Apple", "Zeta", "Apple", "Yak"]
      "Apple" "#007AFF" (by decide) (by decide)
  · rw [C8_color_determinism.2.2.2.2 ["Apple", "Zeta", "Apple", "Yak"]
      "Yak" (by decide) (by decide)]
    decide

/-- C9: whenever `get_analysis_summary` returns, its possible-map count is
`n*(n-1)/2` for `n` the number of available dimensions; concretely `dsC9a`
has 4 dimensions and 6 possible maps, and `dsC9b` has exactly one available
rating dimension and 0 possible maps. -/
theorem C9_possible_maps :
    (∀ (a : Analyzer) (s : Summary), getAnalysisSummary a = some s →
        s.available_dimensions = availableDimensions a.data ∧
        s.possible_maps
          = s.available_dimensions.length * (s.available_dimensions.length - 1) / 2) ∧
    (mkAnalyzer dsC9a = some aC9a ∧ getAnalysisSummary aC9a = some sC9a ∧
      sC9a.available_dimensions.length = 4 ∧ sC9a.possible_maps = 6) ∧
    (mkAnalyzer dsC9b = some aC9b ∧ getAnalysisSummary aC9b = some sC9b ∧
      sC9b.available_dimensions.length = 1 ∧ sC9b.possible_maps = 0) := by
  refine ⟨?_, by decide, by decide⟩
  intro a s h
  unfold getAnalysisSummary at h
  rcases h1 : lookupCol a.processed "brand" with _ | bc
  · rw [h1] at h
    exact Option.noConfusion h
  rw [h1] at h
  rcases h2 : lookupCol a.processed "tier" with _ | tc
  · rw [h2] at h
    exact Option.noConfusion h
  rw [h2] at h
  rw [← Option.some.inj h]
  exact ⟨rfl, rfl⟩

/-- C9 witness: the universal part instantiated at the concrete analyzer of
`dsC9a`. -/
theorem C9_possible_maps_witness :
    sC9a.available_dimensions = availableDimensions aC9a.data ∧
    sC9a.possible_maps
      = sC9a.available_dimensions.length * (sC9a.available_dimensions.length - 1) / 2 :=
  C9_possible_maps.1 aC9a sC9a (by decide)

/-- C10 counterexample: `dsC10bad` is non-empty, has no textual column and no
column named `phone_model` or `brand`, yet constructing the analyzer does not
succeed — every row shares the same mean rating, so `_prepare_data` raises in
the synthetic-weight computation — refuting the claim's assertion that
construction succeeds for every such dataset. -/
theorem C10_counterexample :
    stringColumns dsC10bad = [] ∧ "phone_model" ∉ colNames dsC10bad ∧
    "brand" ∉ colNames dsC10bad ∧ 0 < nRows dsC10bad ∧
    mkAnalyzer dsC10bad = none := by decide

/-- C10 (amended): for a dataset with no textual column and no column named
`phone_model` or `brand`, whenever analyzer construction does succeed,
structure analysis returns a null identifier, the prepared table never gains
a `brand` column, and `get_analysis_summary` raises a KeyError instead of
returning a summary. -/
theorem C10_missing_brand_summary (ds p : Dataset)
    (hstr : stringColumns ds = [])
    (hpm : "phone_model" ∉ colNames ds)
    (hbr : "brand" ∉ colNames ds)
    (hp : prepareData ds = some p) :
    findIdentifierColumn ds = none ∧ "brand" ∉ colNames p ∧
    getAnalysisSummary ⟨ds, p⟩ = none := by
  have hid : findIdentifierColumn ds = none := by
    unfold findIdentifierColumn
    rw [hstr]
  have hcats : findCategoryColumns ds = [] := by
    unfold findCategoryColumns
    unfold stringColumns at hstr
    rw [List.map_eq_nil_iff.mp hstr]
    rfl
  have e1 : prepIdentifier ds = ds := by
    unfold prepIdentifier
    rw [hid]
  have e2 : prepBrand ds = ds := by
    unfold prepBrand
    rw [if_neg (fun hand => hpm hand.2)]
  have hbr3 : "brand" ∉ colNames (prepTier ds ds) := by
    unfold prepTier
    rw [hcats]
    rw [if_neg (fun hand => hand.1 rfl)]
    by_cases htier : "tier" ∈ colNames ds
    · rw [if_neg (not_not_intro htier)]
      exact hbr
    · rw [if_pos htier]
      exact not_mem_addCol hbr (by decide)
  have hbrp : "brand" ∉ colNames p := by
    unfold prepareData at hp
    rw [e1, e2] at hp
    exact prepPopularity_brand hbr3 hp
  refine ⟨hid, hbrp, ?_⟩
  unfold getAnalysisSummary
  rw [lookupCol_eq_none hbrp]

/-- C10 witness: the amended statement holds on `dsC10`, whose rows have
distinct means so that construction succeeds. -/
theorem C10_missing_brand_summary_witness :
    findIdentifierColumn dsC10 = none ∧ "brand" ∉ colNames pC10 ∧
    getAnalysisSummary ⟨dsC10, pC10⟩ = none :=
  C10_missing_brand_summary dsC10 pC10 (by decide) (by decide) (by decide) (by decide)

end Proofs

end PerceptualMap
